import Mathlib

/-!
# Verification of the sharded remote block-execution subsystem

Shallow embedding of two source files of the repository:

* `execution/executor-service/src/remote_executor_client1.rs` — the remote
  block-executor client: `execute_block_inner`, `execute_block_with_retry`,
  and the `BlockExecutorClient::execute_block` implementation.
* `execution/executor-benchmark/src/main.rs` — the benchmark CLI's
  `PrunerOpt::pruner_config` and `Opt::concurrency_level`.

External collaborators that are not part of the two source files (the `bcs`
codec, the `aptos_retrier` retry combinator, the payload types from
`aptos-types`, and the network channel) are modelled from the spec, each with
a doc comment saying so.  Bytes are modelled as natural numbers; machine
integers (`u64`, `usize`) are modelled as `Nat` — none of the embedded
functions can overflow on the values the claims quantify over.
-/

namespace RemoteExec

/-! ## Payload data model

Modelled from the spec (§3, DATA MODEL): the payload types live in
`aptos-types` / `aptos-state-view`, outside the two source files.  Each is an
opaque carrier to this subsystem, so it is embedded as the minimal structure
the spec ascribes to it. -/

/-- Modelled from the spec: an `AnalyzedTransaction` (aptos-types, not under
the source files) is an opaque transaction plus analysis metadata; embedded
as its opaque byte payload. -/
structure AnalyzedTransaction where
  txn_bytes : List Nat
deriving DecidableEq, Repr

/-- Modelled from the spec: `SubBlocksForShard` (aptos-types, not under the
source files) is an ordered sequence of transaction groups, one group per
shard index; the shard index is the position in the sequence. -/
structure SubBlocksForShard where
  sub_blocks : List (List AnalyzedTransaction)
deriving DecidableEq, Repr

/-- Number of shards of a request: the length of the per-shard sequence. -/
def SubBlocksForShard.num_shards (s : SubBlocksForShard) : Nat :=
  s.sub_blocks.length

/-- Per-shard transaction counts of a request, in shard order. -/
def SubBlocksForShard.txn_counts (s : SubBlocksForShard) : List Nat :=
  s.sub_blocks.map List.length

/-- Modelled from the spec: the in-memory `StateView` snapshot
(aptos-state-view, not under the source files) is an immutable, serializable
key/value view of account state; embedded as its entry list. -/
structure InMemoryStateView where
  entries : List (Nat × Nat)
deriving DecidableEq, Repr

/-- `ExecuteBlockCommand` (declared in the executor-service crate, outside the
given source files; shape fixed by the construction site at
`remote_executor_client1.rs:68-73` and by the spec §3): sub-blocks, state
snapshot, concurrency level, optional block gas limit. -/
structure ExecuteBlockCommand where
  sub_blocks : SubBlocksForShard
  state_view : InMemoryStateView
  concurrency_level : Nat
  maybe_block_gas_limit : Option Nat
deriving DecidableEq, Repr

/-- `RemoteExecutionRequest` (spec §3): a tagged envelope with currently a
single variant wrapping an `ExecuteBlockCommand`. -/
inductive RemoteExecutionRequest where
  | ExecuteBlock (cmd : ExecuteBlockCommand)
deriving DecidableEq, Repr

/-- Modelled from the spec: a `TransactionOutput` (aptos-types, not under the
source files) is carried, not interpreted; embedded as an opaque payload. -/
structure TransactionOutput where
  payload : List Nat
deriving DecidableEq, Repr

/-- Modelled from the spec: a `VMStatus` (aptos-types, not under the source
files) is the remote VM's business-level status; embedded as a status code. -/
structure VMStatus where
  status_code : Nat
deriving DecidableEq, Repr

instance exceptDecEq [DecidableEq ε] [DecidableEq α] :
    DecidableEq (Except ε α) := fun x y =>
  match x, y with
  | .ok a, .ok b => decidable_of_iff (a = b) (by simp)
  | .error e, .error f => decidable_of_iff (e = f) (by simp)
  | .ok _, .error _ => isFalse (by intro h; cases h)
  | .error _, .ok _ => isFalse (by intro h; cases h)

/-- `RemoteExecutionResult` (spec §3):
`inner : Result<Vec<Vec<TransactionOutput>>, VMStatus>`, outer sequence
indexed by shard, inner sequence by position within the shard. -/
structure RemoteExecutionResult where
  inner : Except VMStatus (List (List TransactionOutput))
deriving DecidableEq, Repr

/-! ## Wire codec

Modelled from the spec (§4.1 Wire Codec): the source calls `bcs::to_bytes` /
`bcs::from_bytes`, an external crate.  The contract is a deterministic,
positional (field order, no names) binary serialization: sequences are
length-prefixed, options and enum variants are tag-prefixed, and integers use
a ULEB128-style little-endian base-128 varint (unbounded here since machine
integers are modelled as `Nat`).  `decode` fails on bytes that do not match
the expected shape, including trailing bytes. -/

/-- Worker for `ulebEncode`, structurally recursive on a fuel bound so the
kernel can evaluate it; `fuel ≥ n` always suffices since the value shrinks by
a factor of 128 per emitted byte. -/
def ulebEncodeAux : Nat → Nat → List Nat
  | 0, n => [n % 128]
  | fuel + 1, n =>
    if n < 128 then [n]
    else (n % 128 + 128) :: ulebEncodeAux fuel (n / 128)

/-- ULEB128-style encoding of a natural number: low 7 bits per byte,
high bit set on every byte except the last. -/
def ulebEncode (n : Nat) : List Nat :=
  ulebEncodeAux n n

/-- Decoder for `ulebEncode`; returns the value and the unconsumed rest. -/
def ulebDecode : List Nat → Option (Nat × List Nat)
  | [] => none
  | b :: rest =>
    if b < 128 then some (b, rest)
    else
      match ulebDecode rest with
      | some (m, r) => some (m * 128 + (b - 128), r)
      | none => none

theorem ulebDecode_ulebEncodeAux (fuel : Nat) :
    ∀ n rest, n ≤ fuel →
      ulebDecode (ulebEncodeAux fuel n ++ rest) = some (n, rest) := by
  induction fuel with
  | zero =>
    intro n rest hn
    have h0 : n = 0 := Nat.le_zero.mp hn
    simp [h0, ulebEncodeAux, ulebDecode]
  | succ f ihf =>
    intro n rest hn
    rw [ulebEncodeAux]
    by_cases h : n < 128
    · simp [h, ulebDecode]
    · have hdiv : n / 128 < n := Nat.div_lt_self (by omega) (by omega)
      have hfuel : n / 128 ≤ f := by omega
      have hb : ¬ n % 128 + 128 < 128 := by omega
      simp only [h, if_false, List.cons_append, ulebDecode, hb,
        ihf (n / 128) rest hfuel]
      have hmod : n / 128 * 128 + (n % 128 + 128 - 128) = n := by
        have := Nat.div_add_mod n 128
        omega
      rw [hmod]

theorem ulebDecode_ulebEncode (n : Nat) (rest : List Nat) :
    ulebDecode (ulebEncode n ++ rest) = some (n, rest) :=
  ulebDecode_ulebEncodeAux n n rest (Nat.le_refl n)

/-- Concatenated encodings of the elements of a list (no length prefix). -/
def encodeListPayload (encA : α → List Nat) : List α → List Nat
  | [] => []
  | a :: as => encA a ++ encodeListPayload encA as

/-- Decode exactly `k` consecutive elements. -/
def decodeListN (decA : List Nat → Option (α × List Nat)) :
    Nat → List Nat → Option (List α × List Nat)
  | 0, s => some ([], s)
  | k + 1, s =>
    match decA s with
    | none => none
    | some (a, s₁) =>
      match decodeListN decA k s₁ with
      | none => none
      | some (as, s₂) => some (a :: as, s₂)

/-- Length-prefixed sequence encoding (BCS `Vec` shape). -/
def encodeSeq (encA : α → List Nat) (xs : List α) : List Nat :=
  ulebEncode xs.length ++ encodeListPayload encA xs

/-- Length-prefixed sequence decoding. -/
def decodeSeq (decA : List Nat → Option (α × List Nat)) (s : List Nat) :
    Option (List α × List Nat) :=
  match ulebDecode s with
  | none => none
  | some (k, s₁) => decodeListN decA k s₁

theorem decodeListN_encodeListPayload
    (encA : α → List Nat) (decA : List Nat → Option (α × List Nat))
    (hA : ∀ a rest, decA (encA a ++ rest) = some (a, rest))
    (xs : List α) (rest : List Nat) :
    decodeListN decA xs.length (encodeListPayload encA xs ++ rest) =
      some (xs, rest) := by
  induction xs generalizing rest with
  | nil => simp [encodeListPayload, decodeListN]
  | cons a as ihas =>
    simp [encodeListPayload, decodeListN, List.append_assoc, hA, ihas]

theorem decodeSeq_encodeSeq
    (encA : α → List Nat) (decA : List Nat → Option (α × List Nat))
    (hA : ∀ a rest, decA (encA a ++ rest) = some (a, rest))
    (xs : List α) (rest : List Nat) :
    decodeSeq decA (encodeSeq encA xs ++ rest) = some (xs, rest) := by
  simp [encodeSeq, decodeSeq, List.append_assoc, ulebDecode_ulebEncode,
    decodeListN_encodeListPayload encA decA hA]

/-- Option encoding: tag byte `0` for `none`, `1` followed by the payload for
`some` (BCS `Option` shape). -/
def encodeOption (encA : α → List Nat) : Option α → List Nat
  | none => [0]
  | some a => 1 :: encA a

/-- Option decoding. -/
def decodeOption (decA : List Nat → Option (α × List Nat)) :
    List Nat → Option (Option α × List Nat)
  | [] => none
  | t :: rest =>
    if t = 0 then some (none, rest)
    else if t = 1 then
      match decA rest with
      | some (a, r) => some (some a, r)
      | none => none
    else none

theorem decodeOption_encodeOption
    (encA : α → List Nat) (decA : List Nat → Option (α × List Nat))
    (hA : ∀ a rest, decA (encA a ++ rest) = some (a, rest))
    (x : Option α) (rest : List Nat) :
    decodeOption decA (encodeOption encA x ++ rest) = some (x, rest) := by
  cases x with
  | none => simp [encodeOption, decodeOption]
  | some a => simp [encodeOption, decodeOption, hA]

/-- Result encoding: variant tag `0` for `Ok`, `1` for `Err`, followed by the
variant payload (BCS enum shape for Rust `Result`). -/
def encodeResultTag (encE : ε → List Nat) (encA : α → List Nat) :
    Except ε α → List Nat
  | .ok a => 0 :: encA a
  | .error e => 1 :: encE e

/-- Result decoding. -/
def decodeResultTag (decE : List Nat → Option (ε × List Nat))
    (decA : List Nat → Option (α × List Nat)) :
    List Nat → Option (Except ε α × List Nat)
  | [] => none
  | t :: rest =>
    if t = 0 then
      match decA rest with
      | some (a, r) => some (.ok a, r)
      | none => none
    else if t = 1 then
      match decE rest with
      | some (e, r) => some (.error e, r)
      | none => none
    else none

theorem decodeResultTag_encodeResultTag
    (encE : ε → List Nat) (decE : List Nat → Option (ε × List Nat))
    (encA : α → List Nat) (decA : List Nat → Option (α × List Nat))
    (hE : ∀ e rest, decE (encE e ++ rest) = some (e, rest))
    (hA : ∀ a rest, decA (encA a ++ rest) = some (a, rest))
    (x : Except ε α) (rest : List Nat) :
    decodeResultTag decE decA (encodeResultTag encE encA x ++ rest) =
      some (x, rest) := by
  cases x with
  | ok a => simp [encodeResultTag, decodeResultTag, hA]
  | error e => simp [encodeResultTag, decodeResultTag, hE]

/-- Pair encoding: both components in order (BCS tuple/struct shape). -/
def encodePair (encA : α → List Nat) (encB : β → List Nat) (p : α × β) :
    List Nat :=
  encA p.1 ++ encB p.2

/-- Pair decoding. -/
def decodePair (decA : List Nat → Option (α × List Nat))
    (decB : List Nat → Option (β × List Nat)) (s : List Nat) :
    Option ((α × β) × List Nat) :=
  match decA s with
  | none => none
  | some (a, s₁) =>
    match decB s₁ with
    | none => none
    | some (b, s₂) => some ((a, b), s₂)

theorem decodePair_encodePair
    (encA : α → List Nat) (decA : List Nat → Option (α × List Nat))
    (encB : β → List Nat) (decB : List Nat → Option (β × List Nat))
    (hA : ∀ a rest, decA (encA a ++ rest) = some (a, rest))
    (hB : ∀ b rest, decB (encB b ++ rest) = some (b, rest))
    (p : α × β) (rest : List Nat) :
    decodePair decA decB (encodePair encA encB p ++ rest) = some (p, rest) := by
  simp [encodePair, decodePair, List.append_assoc, hA, hB]

/-! ### Envelope encodings -/

/-- Encoding of an `AnalyzedTransaction`: its opaque byte payload as a
length-prefixed sequence. -/
def encodeAnalyzedTransaction (t : AnalyzedTransaction) : List Nat :=
  encodeSeq ulebEncode t.txn_bytes

/-- Decoder for `encodeAnalyzedTransaction`. -/
def decodeAnalyzedTransaction (s : List Nat) :
    Option (AnalyzedTransaction × List Nat) :=
  match decodeSeq ulebDecode s with
  | none => none
  | some (bs, r) => some (⟨bs⟩, r)

theorem decodeAnalyzedTransaction_encode (t : AnalyzedTransaction)
    (rest : List Nat) :
    decodeAnalyzedTransaction (encodeAnalyzedTransaction t ++ rest) =
      some (t, rest) := by
  simp [encodeAnalyzedTransaction, decodeAnalyzedTransaction,
    decodeSeq_encodeSeq ulebEncode ulebDecode ulebDecode_ulebEncode]

/-- Encoding of `SubBlocksForShard`: sequence of per-shard sequences. -/
def encodeSubBlocksForShard (s : SubBlocksForShard) : List Nat :=
  encodeSeq (encodeSeq encodeAnalyzedTransaction) s.sub_blocks

/-- Decoder for `encodeSubBlocksForShard`. -/
def decodeSubBlocksForShard (s : List Nat) :
    Option (SubBlocksForShard × List Nat) :=
  match decodeSeq (decodeSeq decodeAnalyzedTransaction) s with
  | none => none
  | some (bs, r) => some (⟨bs⟩, r)

theorem decodeSubBlocksForShard_encode (s : SubBlocksForShard)
    (rest : List Nat) :
    decodeSubBlocksForShard (encodeSubBlocksForShard s ++ rest) =
      some (s, rest) := by
  have hshard := decodeSeq_encodeSeq encodeAnalyzedTransaction
    decodeAnalyzedTransaction decodeAnalyzedTransaction_encode
  simp [encodeSubBlocksForShard, decodeSubBlocksForShard,
    decodeSeq_encodeSeq _ _ hshard]

/-- Encoding of the state snapshot: sequence of key/value pairs. -/
def encodeInMemoryStateView (v : InMemoryStateView) : List Nat :=
  encodeSeq (encodePair ulebEncode ulebEncode) v.entries

/-- Decoder for `encodeInMemoryStateView`. -/
def decodeInMemoryStateView (s : List Nat) :
    Option (InMemoryStateView × List Nat) :=
  match decodeSeq (decodePair ulebDecode ulebDecode) s with
  | none => none
  | some (es, r) => some (⟨es⟩, r)

theorem decodeInMemoryStateView_encode (v : InMemoryStateView)
    (rest : List Nat) :
    decodeInMemoryStateView (encodeInMemoryStateView v ++ rest) =
      some (v, rest) := by
  have hpair := decodePair_encodePair ulebEncode ulebDecode ulebEncode
    ulebDecode ulebDecode_ulebEncode ulebDecode_ulebEncode
  simp [encodeInMemoryStateView, decodeInMemoryStateView,
    decodeSeq_encodeSeq _ _ hpair]

/-- Encoding of an `ExecuteBlockCommand`: the four fields in declaration
order (positional, no field names). -/
def encodeExecuteBlockCommand (c : ExecuteBlockCommand) : List Nat :=
  encodeSubBlocksForShard c.sub_blocks ++
    encodeInMemoryStateView c.state_view ++
    ulebEncode c.concurrency_level ++
    encodeOption ulebEncode c.maybe_block_gas_limit

/-- Decoder for `encodeExecuteBlockCommand`. -/
def decodeExecuteBlockCommand (s : List Nat) :
    Option (ExecuteBlockCommand × List Nat) :=
  match decodeSubBlocksForShard s with
  | none => none
  | some (sb, s₁) =>
    match decodeInMemoryStateView s₁ with
    | none => none
    | some (sv, s₂) =>
      match ulebDecode s₂ with
      | none => none
      | some (cl, s₃) =>
        match decodeOption ulebDecode s₃ with
        | none => none
        | some (gl, s₄) => some (⟨sb, sv, cl, gl⟩, s₄)

theorem decodeExecuteBlockCommand_encode (c : ExecuteBlockCommand)
    (rest : List Nat) :
    decodeExecuteBlockCommand (encodeExecuteBlockCommand c ++ rest) =
      some (c, rest) := by
  simp [encodeExecuteBlockCommand, decodeExecuteBlockCommand,
    List.append_assoc, decodeSubBlocksForShard_encode,
    decodeInMemoryStateView_encode, ulebDecode_ulebEncode,
    decodeOption_encodeOption ulebEncode ulebDecode ulebDecode_ulebEncode]

/-- Encoding of a `RemoteExecutionRequest`: variant tag (currently only
variant 0, `ExecuteBlock`) followed by the command payload. -/
def encodeRemoteExecutionRequest : RemoteExecutionRequest → List Nat
  | .ExecuteBlock c => 0 :: encodeExecuteBlockCommand c

/-- Decoder for `encodeRemoteExecutionRequest`. -/
def decodeRemoteExecutionRequest :
    List Nat → Option (RemoteExecutionRequest × List Nat)
  | [] => none
  | t :: rest =>
    if t = 0 then
      match decodeExecuteBlockCommand rest with
      | none => none
      | some (c, r) => some (.ExecuteBlock c, r)
    else none

theorem decodeRemoteExecutionRequest_encode (x : RemoteExecutionRequest)
    (rest : List Nat) :
    decodeRemoteExecutionRequest (encodeRemoteExecutionRequest x ++ rest) =
      some (x, rest) := by
  cases x with
  | ExecuteBlock c =>
    simp [encodeRemoteExecutionRequest, decodeRemoteExecutionRequest,
      decodeExecuteBlockCommand_encode]

/-- Encoding of a `TransactionOutput`: its opaque payload. -/
def encodeTransactionOutput (t : TransactionOutput) : List Nat :=
  encodeSeq ulebEncode t.payload

/-- Decoder for `encodeTransactionOutput`. -/
def decodeTransactionOutput (s : List Nat) :
    Option (TransactionOutput × List Nat) :=
  match decodeSeq ulebDecode s with
  | none => none
  | some (bs, r) => some (⟨bs⟩, r)

theorem decodeTransactionOutput_encode (t : TransactionOutput)
    (rest : List Nat) :
    decodeTransactionOutput (encodeTransactionOutput t ++ rest) =
      some (t, rest) := by
  simp [encodeTransactionOutput, decodeTransactionOutput,
    decodeSeq_encodeSeq ulebEncode ulebDecode ulebDecode_ulebEncode]

/-- Encoding of a `VMStatus`: its status code. -/
def encodeVMStatus (s : VMStatus) : List Nat :=
  ulebEncode s.status_code

/-- Decoder for `encodeVMStatus`. -/
def decodeVMStatus (s : List Nat) : Option (VMStatus × List Nat) :=
  match ulebDecode s with
  | none => none
  | some (c, r) => some (⟨c⟩, r)

theorem decodeVMStatus_encode (v : VMStatus) (rest : List Nat) :
    decodeVMStatus (encodeVMStatus v ++ rest) = some (v, rest) := by
  simp [encodeVMStatus, decodeVMStatus, ulebDecode_ulebEncode]

/-- Encoding of a `RemoteExecutionResult`: its `inner` `Result`, `Ok` carrying
the per-shard, per-transaction output sequences, `Err` carrying a status. -/
def encodeRemoteExecutionResult (r : RemoteExecutionResult) : List Nat :=
  encodeResultTag encodeVMStatus
    (encodeSeq (encodeSeq encodeTransactionOutput)) r.inner

/-- Decoder for `encodeRemoteExecutionResult`. -/
def decodeRemoteExecutionResult (s : List Nat) :
    Option (RemoteExecutionResult × List Nat) :=
  match decodeResultTag decodeVMStatus
      (decodeSeq (decodeSeq decodeTransactionOutput)) s with
  | none => none
  | some (inner, r) => some (⟨inner⟩, r)

theorem decodeRemoteExecutionResult_encode (x : RemoteExecutionResult)
    (rest : List Nat) :
    decodeRemoteExecutionResult (encodeRemoteExecutionResult x ++ rest) =
      some (x, rest) := by
  have hout := decodeSeq_encodeSeq encodeTransactionOutput
    decodeTransactionOutput decodeTransactionOutput_encode
  have hres := decodeResultTag_encodeResultTag encodeVMStatus
    decodeVMStatus (encodeSeq (encodeSeq encodeTransactionOutput))
    (decodeSeq (decodeSeq decodeTransactionOutput)) decodeVMStatus_encode
    (decodeSeq_encodeSeq _ _ hout)
  simp [encodeRemoteExecutionResult, decodeRemoteExecutionResult, hres]

/-! ### Top-level byte-level codec

Modelled from the spec (§4.1): `bcs::to_bytes` / `bcs::from_bytes`, where
decoding consumes the whole byte string — trailing bytes are a shape error. -/

/-- `bcs::to_bytes` for a request envelope. -/
def requestToBytes (x : RemoteExecutionRequest) : List Nat :=
  encodeRemoteExecutionRequest x

/-- `bcs::from_bytes` for a request envelope (rejects trailing bytes). -/
def requestFromBytes (bs : List Nat) : Option RemoteExecutionRequest :=
  match decodeRemoteExecutionRequest bs with
  | some (x, []) => some x
  | _ => none

/-- `bcs::to_bytes` for a result envelope. -/
def resultToBytes (x : RemoteExecutionResult) : List Nat :=
  encodeRemoteExecutionResult x

/-- `bcs::from_bytes` for a result envelope (rejects trailing bytes). -/
def resultFromBytes (bs : List Nat) : Option RemoteExecutionResult :=
  match decodeRemoteExecutionResult bs with
  | some (x, []) => some x
  | _ => none

theorem requestFromBytes_requestToBytes (x : RemoteExecutionRequest) :
    requestFromBytes (requestToBytes x) = some x := by
  have h := decodeRemoteExecutionRequest_encode x []
  simp only [List.append_nil] at h
  simp [requestFromBytes, requestToBytes, h]

theorem resultFromBytes_resultToBytes (x : RemoteExecutionResult) :
    resultFromBytes (resultToBytes x) = some x := by
  have h := decodeRemoteExecutionResult_encode x []
  simp only [List.append_nil] at h
  simp [resultFromBytes, resultToBytes, h]

/-! ## Client error type and network channel

The `Error` enum lives in the executor-service crate's `error.rs`, not under
the given source files; the network channel is `aptos_secure_net`.  Both are
modelled from the spec (§4.2 Network Channel, §7 error taxonomy). -/

/-- Modelled from the spec: the client's `Error` (error.rs, not under the
source files) distinguishes transport failures (connection reset, timeout)
from codec failures (malformed frame).  Both arms reach the retry closure
through the same `?` conversions in `execute_block_inner`. -/
inductive Error where
  | transport (code : Nat)
  | codec
deriving DecidableEq, Repr

/-- Modelled from the spec: the network channel (`aptos_secure_net`, not
under the source files) performs one framed `write`+`read` round trip per
call.  A `Network` maps the attempt index and the written request bytes to
either a transport-error code or the response bytes read.  Indexing by
attempt lets one model express a remote that fails on some attempts and
answers on others. -/
def Network : Type :=
  Nat → List Nat → Except Nat (List Nat)

/-! ## The remote executor client

Embeds `remote_executor_client1.rs` lines 34–77. -/

/-- Rust `Clone` on the request: the request is an owned immutable value, so
cloning yields the same value (`remote_executor_client1.rs:50` clones the
captured request on every attempt). -/
def cloneRequest (r : RemoteExecutionRequest) : RemoteExecutionRequest := r

/-- `execute_block_inner` (`remote_executor_client1.rs:34-43`): serialize the
request, write it, read the response bytes, deserialize them.  A transport
failure of write/read becomes `Error.transport`; a `bcs` decode failure
becomes `Error.codec`; both via `?`. -/
def execute_block_inner (net : Network) (attempt : Nat)
    (execution_request : RemoteExecutionRequest) :
    Except Error RemoteExecutionResult :=
  let input_message := requestToBytes execution_request
  match net attempt input_message with
  | .error e => .error (.transport e)
  | .ok bytes =>
    match resultFromBytes bytes with
    | none => .error .codec
    | some r => .ok r

/-- The bytes `execute_block_inner` writes to the channel on a given attempt
(`remote_executor_client1.rs:38`): the serialization of a clone of the one
captured request. -/
def writtenBytes (execution_request : RemoteExecutionRequest)
    (_attempt : Nat) : List Nat :=
  requestToBytes (cloneRequest execution_request)

/-- Boolean error test on `Except` (the retry loop branches on `Err`). -/
def isErr : Except ε α → Bool
  | .error _ => true
  | .ok _ => false

/-- Trace of one retry loop run: the final result, the attempt indices that
were actually performed (in order), and the sleeps performed between
consecutive attempts (in milliseconds). -/
structure RetryTrace (ε τ : Type) where
  result : Except ε τ
  tried : List Nat
  sleeps : List Nat

/-- Modelled from the spec (§4.3 Retrying RPC Client): the core loop of
`aptos_retrier::retry` (not under the source files).  `fuel` is the number of
retries still allowed after the current attempt; on `Ok` the loop returns at
once; on `Err` with fuel left it sleeps `delay` ms and retries; the last
attempt's `Err` is returned as is. -/
def retryGo (op : Nat → Except ε τ) (delay : Nat) :
    Nat → Nat → RetryTrace ε τ
  | start, 0 => ⟨op start, [start], []⟩
  | start, fuel + 1 =>
    match op start with
    | .ok v => ⟨.ok v, [start], []⟩
    | .error _ =>
      let t := retryGo op delay (start + 1) fuel
      ⟨t.result, start :: t.tried, delay :: t.sleeps⟩

/-- Modelled from the spec (§4.3): `aptos_retrier::fixed_retry_strategy`
(not under the source files) — a bounded policy of `tries` total attempts
with a fixed `delay_ms` delay between consecutive attempts (no exponential
backoff). -/
def fixed_retry_strategy (tries delay_ms : Nat) : Nat × Nat :=
  (tries, delay_ms)

/-- Modelled from the spec (§4.3): `aptos_retrier::retry` (not under the
source files) runs the fallible operation under the given strategy: up to
`tries` attempts, first success returned, last failure returned after
exhaustion. -/
def retry (strategy : Nat × Nat) (op : Nat → Except ε τ) : RetryTrace ε τ :=
  retryGo op strategy.2 0 (strategy.1 - 1)

/-- `execute_block_with_retry` (`remote_executor_client1.rs:45-57`), traced:
`retry(fixed_retry_strategy(5, 20), || execute_block_inner(request.clone()))`.
The spec (§4.3) fixes the policy at R = 5 attempts and D = 20 ms. -/
def execute_block_with_retry_trace (net : Network)
    (execution_request : RemoteExecutionRequest) :
    RetryTrace Error RemoteExecutionResult :=
  retry (fixed_retry_strategy 5 20)
    (fun attempt => execute_block_inner net attempt execution_request)

/-- `execute_block_with_retry` (`remote_executor_client1.rs:45-57`): the
`.unwrap()` aborts the process when the retry budget is exhausted, so the
abort is modelled as `none` — there is no recoverable error channel in the
Rust signature, which returns a bare `RemoteExecutionResult`. -/
def execute_block_with_retry (net : Network)
    (execution_request : RemoteExecutionRequest) :
    Option RemoteExecutionResult :=
  (execute_block_with_retry_trace net execution_request).result.toOption

/-- Number of attempts a call performs: one network round trip each. -/
def attemptsUsed (net : Network) (execution_request : RemoteExecutionRequest) :
    Nat :=
  (execute_block_with_retry_trace net execution_request).tried.length

/-- The inter-attempt sleeps a call performs, in milliseconds. -/
def sleepsPerformed (net : Network)
    (execution_request : RemoteExecutionRequest) : List Nat :=
  (execute_block_with_retry_trace net execution_request).sleeps

/-- The request bytes written to the channel, one entry per attempt
performed. -/
def sentBytes (net : Network) (execution_request : RemoteExecutionRequest) :
    List (List Nat) :=
  (execute_block_with_retry_trace net execution_request).tried.map
    (writtenBytes execution_request)

/-- `BlockExecutorClient::execute_block` for the client
(`remote_executor_client1.rs:60-77`): assemble the `ExecuteBlockCommand`,
wrap it in the request envelope, run the retrying call, and return the
decoded result's `inner` field.  The `none` case again models the process
abort of `.unwrap()` inside `execute_block_with_retry`. -/
def execute_block (net : Network) (sub_blocks : SubBlocksForShard)
    (state_view : InMemoryStateView) (concurrency_level : Nat)
    (maybe_block_gas_limit : Option Nat) :
    Option (Except VMStatus (List (List TransactionOutput))) :=
  let input := RemoteExecutionRequest.ExecuteBlock
    ⟨sub_blocks, state_view, concurrency_level, maybe_block_gas_limit⟩
  (execute_block_with_retry net input).map RemoteExecutionResult.inner

/-! ## Retry loop lemmas -/

theorem retryGo_first_success (op : Nat → Except ε τ) (delay : Nat)
    (start fuel k : Nat) (v : τ)
    (hk : k ≤ fuel)
    (hfail : ∀ j, j < k → isErr (op (start + j)) = true)
    (hok : op (start + k) = .ok v) :
    retryGo op delay start fuel =
      ⟨.ok v, List.range' start (k + 1), List.replicate k delay⟩ := by
  induction k generalizing start fuel with
  | zero =>
    simp only [Nat.add_zero] at hok
    cases fuel with
    | zero => simp [retryGo, hok, List.range']
    | succ f => simp [retryGo, hok, List.range']
  | succ k ihk =>
    cases fuel with
    | zero => omega
    | succ f =>
      have h0 : isErr (op start) = true := by
        have := hfail 0 (Nat.succ_pos k)
        simpa using this
      rw [retryGo]
      cases hop : op start with
      | ok w => rw [hop] at h0; simp [isErr] at h0
      | error e =>
        have hrec := ihk (start + 1) f (by omega)
          (fun j hj => by
            have := hfail (j + 1) (by omega)
            simpa [Nat.add_assoc, Nat.add_comm 1 j] using this)
          (by simpa [Nat.add_assoc, Nat.add_comm 1 k] using hok)
        simp [hrec, List.range', List.replicate]

theorem retryGo_all_fail (op : Nat → Except ε τ) (delay : Nat)
    (start fuel : Nat)
    (hfail : ∀ j, j ≤ fuel → isErr (op (start + j)) = true) :
    retryGo op delay start fuel =
      ⟨op (start + fuel), List.range' start (fuel + 1),
        List.replicate fuel delay⟩ := by
  induction fuel generalizing start with
  | zero => simp [retryGo, List.range']
  | succ f ihf =>
    have h0 : isErr (op start) = true := by
      have := hfail 0 (Nat.zero_le _)
      simpa using this
    rw [retryGo]
    cases hop : op start with
    | ok w => rw [hop] at h0; simp [isErr] at h0
    | error e =>
      have hrec := ihf (start + 1)
        (fun j hj => by
          have := hfail (j + 1) (by omega)
          simpa [Nat.add_assoc, Nat.add_comm 1 j] using this)
      simp [hrec, List.range', List.replicate, Nat.add_assoc,
        Nat.add_comm 1 f]

/-- Shared consequence: when the `k`-th attempt (0-based) is the first to
succeed, the traced call returns that result after exactly `k + 1` attempts
with a 20 ms sleep before each retry. -/
theorem with_retry_first_success (net : Network)
    (req : RemoteExecutionRequest) (k : Nat) (r : RemoteExecutionResult)
    (hk : k < 5)
    (hfail : ∀ j, j < k → isErr (execute_block_inner net j req) = true)
    (hok : execute_block_inner net k req = .ok r) :
    execute_block_with_retry net req = some r ∧
    attemptsUsed net req = k + 1 ∧
    sleepsPerformed net req = List.replicate k 20 := by
  have ht : execute_block_with_retry_trace net req =
      ⟨.ok r, List.range' 0 (k + 1), List.replicate k 20⟩ := by
    show retryGo (fun a => execute_block_inner net a req) 20 0 4 = _
    exact retryGo_first_success _ 20 0 4 k r (by omega)
      (fun j hj => by simpa using hfail j hj) (by simpa using hok)
  refine ⟨?_, ?_, ?_⟩
  · simp [execute_block_with_retry, ht, Except.toOption]
  · simp [attemptsUsed, ht]
  · simp [sleepsPerformed, ht]

/-- Shared consequence: when all five attempts fail, the traced call performs
exactly 5 attempts, sleeps 4 times, and the `.unwrap()` aborts (`none`). -/
theorem with_retry_all_fail (net : Network) (req : RemoteExecutionRequest)
    (hall : ∀ j, j < 5 → isErr (execute_block_inner net j req) = true) :
    execute_block_with_retry net req = none ∧
    attemptsUsed net req = 5 ∧
    sleepsPerformed net req = List.replicate 4 20 := by
  have ht : execute_block_with_retry_trace net req =
      ⟨execute_block_inner net 4 req, List.range' 0 5,
        List.replicate 4 20⟩ := by
    show retryGo (fun a => execute_block_inner net a req) 20 0 4 = _
    have := retryGo_all_fail (fun a => execute_block_inner net a req) 20 0 4
      (fun j hj => by simpa using hall j (by omega))
    simpa using this
  have h4 := hall 4 (by omega)
  refine ⟨?_, ?_, ?_⟩
  · cases hop : execute_block_inner net 4 req with
    | ok v => rw [hop] at h4; simp [isErr] at h4
    | error e => simp [execute_block_with_retry, ht, hop, Except.toOption]
  · simp [attemptsUsed, ht]
  · simp [sleepsPerformed, ht]

/-! ## Concrete scenarios used by witnesses and counterexamples -/

/-- A small concrete request: one shard holding one transaction. -/
def reqA : RemoteExecutionRequest :=
  .ExecuteBlock ⟨⟨[[⟨[1]⟩]]⟩, ⟨[(0, 7)]⟩, 2, some 3⟩

/-- A small concrete successful result matching `reqA`'s shape. -/
def resA : RemoteExecutionResult := ⟨.ok [[⟨[5]⟩]]⟩

/-- A remote that fails with a transport error on attempts 0 and 1 and
answers with `resA` from attempt 2 on. -/
def netFlaky : Network := fun attempt _ =>
  if attempt < 2 then .error 9 else .ok (resultToBytes resA)

/-- A remote that always fails with a transport error. -/
def netDown : Network := fun _ _ => .error 1

/-- A remote that always answers with bytes that do not decode into a
`RemoteExecutionResult` (a malformed frame). -/
def netGarbage : Network := fun _ _ => .ok [255]

/-- A remote that always reports the VM status 42 as a business error. -/
def netVMErr : Network := fun _ _ => .ok (resultToBytes ⟨.error ⟨42⟩⟩)

/-- A well-shaped result with two shards. -/
def resTwoShards : RemoteExecutionResult := ⟨.ok [[], []]⟩

/-- A remote that answers every request with the two-shard `resTwoShards`,
whatever the request's shape. -/
def netMismatch : Network := fun _ _ => .ok (resultToBytes resTwoShards)

/-- A one-shard, one-transaction input. -/
def sbOne : SubBlocksForShard := ⟨[[⟨[1]⟩]]⟩

/-- An empty state snapshot. -/
def svEmpty : InMemoryStateView := ⟨[]⟩

/-! ## Claims about the remote executor client -/

/-- C1: `execute_block_with_retry` invokes the remote call up to exactly 5
attempts with a fixed 20 ms delay between consecutive attempts; it returns
the first successful result (a call failing on the first two attempts and
succeeding on the third uses the connection exactly 3 times), and a call
that always fails is attempted exactly 5 times and no more. -/
theorem retry_bounded_five_attempts_fixed_delay (net : Network)
    (req : RemoteExecutionRequest) :
    (∀ k, k < 5 →
      (∀ j, j < k → isErr (execute_block_inner net j req) = true) →
      ∀ r, execute_block_inner net k req = .ok r →
        execute_block_with_retry net req = some r ∧
        attemptsUsed net req = k + 1 ∧
        sleepsPerformed net req = List.replicate k 20) ∧
    ((∀ j, j < 5 → isErr (execute_block_inner net j req) = true) →
      attemptsUsed net req = 5 ∧
      sleepsPerformed net req = List.replicate 4 20) := by
  constructor
  · intro k hk hfail r hok
    exact with_retry_first_success net req k r hk hfail hok
  · intro hall
    exact (with_retry_all_fail net req hall).2

/-- Witness for C1: a remote failing on attempts 1 and 2 and succeeding on
attempt 3 is used exactly 3 times, returns the success, and sleeps twice. -/
theorem retry_bounded_five_attempts_fixed_delay_witness :
    execute_block_with_retry netFlaky reqA = some resA ∧
    attemptsUsed netFlaky reqA = 3 ∧
    sleepsPerformed netFlaky reqA = List.replicate 2 20 :=
  (retry_bounded_five_attempts_fixed_delay netFlaky reqA).1 2 (by decide)
    (by decide) resA (by decide)

/-- C2: when every retry attempt fails, `execute_block_with_retry` aborts the
host process — the `.unwrap()` of the exhausted retry, modelled as `none` —
and `execute_block` never surfaces retry exhaustion to its caller as a
recoverable error value: its only error channel is the `VMStatus` branch. -/
theorem retry_exhaustion_aborts_process (net : Network)
    (sb : SubBlocksForShard) (sv : InMemoryStateView) (cl : Nat)
    (gl : Option Nat)
    (hall : ∀ j, j < 5 →
      isErr (execute_block_inner net j
        (.ExecuteBlock ⟨sb, sv, cl, gl⟩)) = true) :
    execute_block_with_retry net (.ExecuteBlock ⟨sb, sv, cl, gl⟩) = none ∧
    execute_block net sb sv cl gl = none := by
  have h := with_retry_all_fail net (.ExecuteBlock ⟨sb, sv, cl, gl⟩) hall
  refine ⟨h.1, ?_⟩
  simp [execute_block, h.1]

/-- Witness for C2: an always-failing remote makes the call abort. -/
theorem retry_exhaustion_aborts_process_witness :
    execute_block_with_retry netDown
      (.ExecuteBlock ⟨sbOne, svEmpty, 2, some 3⟩) = none ∧
    execute_block netDown sbOne svEmpty 2 (some 3) = none :=
  retry_exhaustion_aborts_process netDown sbOne svEmpty 2 (some 3)
    (by decide)

/-- C3 counterexample: for a one-shard, one-transaction request, a remote
answering with a well-formed two-shard result is not rejected —
`execute_block` (source lines 60–77 contain no shape comparison) returns the
mismatched outputs to the caller. -/
theorem shape_mismatch_returned_to_caller :
    execute_block netMismatch sbOne svEmpty 1 none = some (.ok [[], []]) ∧
    sbOne.num_shards = 1 ∧
    ([[], []] : List (List TransactionOutput)).length = 2 := by
  decide

/-- C3 (amended): the client performs no shape validation; whatever result
the retrying call decodes is handed to the caller unchanged (its `inner`
field), whatever its shard count and per-shard transaction counts. -/
theorem result_returned_unchecked (net : Network) (sb : SubBlocksForShard)
    (sv : InMemoryStateView) (cl : Nat) (gl : Option Nat)
    (r : RemoteExecutionResult)
    (h : execute_block_with_retry net (.ExecuteBlock ⟨sb, sv, cl, gl⟩) =
      some r) :
    execute_block net sb sv cl gl = some r.inner := by
  simp [execute_block, h]

/-- Witness for the amended C3: the two-shard answer to the one-shard
request flows through unchanged. -/
theorem result_returned_unchecked_witness :
    execute_block netMismatch sbOne svEmpty 1 none =
      some resTwoShards.inner :=
  result_returned_unchecked netMismatch sbOne svEmpty 1 none resTwoShards
    (by decide)

/-- C4 counterexample: a remote whose response bytes never decode produces a
codec error on every attempt, and the client retries it like any failure:
all 5 attempts are consumed — not 1 — before the call becomes fatal. -/
theorem codec_error_consumes_all_attempts :
    execute_block_inner netGarbage 0 reqA = .error .codec ∧
    attemptsUsed netGarbage reqA = 5 ∧
    execute_block_with_retry netGarbage reqA = none := by
  decide

/-- C4 (amended): a codec error is not treated as immediately fatal — the
retry loop cannot distinguish error kinds, so each failed decode consumes
one of the 5 attempts and the call aborts only on exhaustion. -/
theorem codec_errors_retried (net : Network) (req : RemoteExecutionRequest)
    (hall : ∀ j, j < 5 → execute_block_inner net j req = .error .codec) :
    attemptsUsed net req = 5 ∧
    sleepsPerformed net req = List.replicate 4 20 ∧
    execute_block_with_retry net req = none := by
  have h := with_retry_all_fail net req
    (fun j hj => by rw [hall j hj]; rfl)
  exact ⟨h.2.1, h.2.2, h.1⟩

/-- Witness for the amended C4 at the malformed-frame remote. -/
theorem codec_errors_retried_witness :
    attemptsUsed netGarbage reqA = 5 ∧
    sleepsPerformed netGarbage reqA = List.replicate 4 20 ∧
    execute_block_with_retry netGarbage reqA = none :=
  codec_errors_retried netGarbage reqA (by decide)

/-- C5: a response that decodes into a `RemoteExecutionResult` is a success
at the retry layer, so a single round trip happens; `execute_block` hands
the decoded `inner` to the caller — the `VMStatus` as the `Err` branch when
the remote reports a VM-status failure, the per-shard, per-transaction
output sequences on success. -/
theorem vm_status_returned_without_retry (net : Network)
    (sb : SubBlocksForShard) (sv : InMemoryStateView) (cl : Nat)
    (gl : Option Nat) (r : RemoteExecutionResult)
    (hnet : net 0 (requestToBytes (.ExecuteBlock ⟨sb, sv, cl, gl⟩)) =
      .ok (resultToBytes r)) :
    execute_block net sb sv cl gl = some r.inner ∧
    attemptsUsed net (.ExecuteBlock ⟨sb, sv, cl, gl⟩) = 1 ∧
    sleepsPerformed net (.ExecuteBlock ⟨sb, sv, cl, gl⟩) = [] := by
  have hok : execute_block_inner net 0 (.ExecuteBlock ⟨sb, sv, cl, gl⟩) =
      .ok r := by
    simp [execute_block_inner, hnet, resultFromBytes_resultToBytes]
  have h := with_retry_first_success net (.ExecuteBlock ⟨sb, sv, cl, gl⟩)
    0 r (by omega) (fun j hj => by omega) hok
  refine ⟨?_, h.2.1, by simpa using h.2.2⟩
  simp [execute_block, h.1]

/-- Witness for C5: a remote reporting VM status 42 produces that status as
the caller's `Err` value after a single attempt. -/
theorem vm_status_returned_without_retry_witness :
    execute_block netVMErr sbOne svEmpty 1 none = some (.error ⟨42⟩) ∧
    attemptsUsed netVMErr (.ExecuteBlock ⟨sbOne, svEmpty, 1, none⟩) = 1 ∧
    sleepsPerformed netVMErr (.ExecuteBlock ⟨sbOne, svEmpty, 1, none⟩) =
      [] :=
  vm_status_returned_without_retry netVMErr sbOne svEmpty 1 none
    ⟨.error ⟨42⟩⟩ (by decide)

/-- C8: every attempt of one `execute_block_with_retry` call writes
byte-for-byte identical request bytes — the captured request value is only
cloned, never mutated, and serialization is a pure function of the value. -/
theorem identical_bytes_every_attempt (net : Network)
    (req : RemoteExecutionRequest) :
    sentBytes net req =
      List.replicate (attemptsUsed net req) (requestToBytes req) := by
  have hw : writtenBytes req = fun _ => requestToBytes req := rfl
  unfold sentBytes attemptsUsed
  rw [hw, List.map_const']

/-- C9: decoding the bytes produced by encoding yields the original value,
for every request envelope and every result envelope — the quantifiers range
over all values, so the empty sub-block, zero-shard and absent-gas-limit
edge cases are included. -/
theorem codec_round_trip (x : RemoteExecutionRequest)
    (y : RemoteExecutionResult) :
    requestFromBytes (requestToBytes x) = some x ∧
    resultFromBytes (resultToBytes y) = some y :=
  ⟨requestFromBytes_requestToBytes x, resultFromBytes_resultToBytes y⟩

end RemoteExec

namespace Benchmark

/-!
## The executor-benchmark CLI

Embeds `execution/executor-benchmark/src/main.rs`: the `PrunerOpt` CLI group
with its `pruner_config` constructor (lines 35–85) and the `Opt` struct with
its `concurrency_level` derivation (lines 113–171).  The config structs come
from `aptos-config`, outside the given source files; their field lists are
fixed by the construction site in `pruner_config` and by the spec §3.
-/

/-- `StateMerklePrunerConfig` (aptos-config; fields as used at
`main.rs:67-71` and spec §3). -/
structure StateMerklePrunerConfig where
  enable : Bool
  prune_window : Nat
  batch_size : Nat
deriving DecidableEq, Repr

/-- `EpochSnapshotPrunerConfig` (aptos-config; fields as used at
`main.rs:72-76` and spec §3). -/
structure EpochSnapshotPrunerConfig where
  enable : Bool
  prune_window : Nat
  batch_size : Nat
deriving DecidableEq, Repr

/-- `LedgerPrunerConfig` (aptos-config; fields as used at `main.rs:77-82`
and spec §3, including `user_pruning_window_offset`). -/
structure LedgerPrunerConfig where
  enable : Bool
  prune_window : Nat
  batch_size : Nat
  user_pruning_window_offset : Nat
deriving DecidableEq, Repr

/-- `PrunerConfig` (aptos-config): one config per pruner kind. -/
structure PrunerConfig where
  state_merkle_pruner_config : StateMerklePrunerConfig
  epoch_snapshot_pruner_config : EpochSnapshotPrunerConfig
  ledger_pruner_config : LedgerPrunerConfig
deriving DecidableEq, Repr

/-- `PrunerOpt` (`main.rs:35-62`): the nine pruner CLI options.  This is the
whole CLI surface feeding `pruner_config`; quantifying over `PrunerOpt`
quantifies over every command line. -/
structure PrunerOpt where
  enable_state_pruner : Bool
  enable_epoch_snapshot_pruner : Bool
  enable_ledger_pruner : Bool
  state_prune_window : Nat
  epoch_snapshot_prune_window : Nat
  ledger_prune_window : Nat
  ledger_pruning_batch_size : Nat
  state_pruning_batch_size : Nat
  epoch_snapshot_pruning_batch_size : Nat
deriving DecidableEq, Repr

/-- `PrunerOpt::pruner_config` (`main.rs:64-85`): builds the three configs by
struct literal — a total function with no validation and no error path;
`user_pruning_window_offset` is the literal `0`. -/
def PrunerOpt.pruner_config (o : PrunerOpt) : PrunerConfig :=
  { state_merkle_pruner_config :=
      { enable := o.enable_state_pruner
        prune_window := o.state_prune_window
        batch_size := o.state_pruning_batch_size }
    epoch_snapshot_pruner_config :=
      { enable := o.enable_epoch_snapshot_pruner
        prune_window := o.epoch_snapshot_prune_window
        batch_size := o.epoch_snapshot_pruning_batch_size }
    ledger_pruner_config :=
      { enable := o.enable_ledger_pruner
        prune_window := o.ledger_prune_window
        batch_size := o.ledger_pruning_batch_size
        user_pruning_window_offset := 0 } }

/-- The two `Opt` fields that `Opt::concurrency_level` reads
(`main.rs:121-125`): the optional explicit level and the shard count. -/
structure Opt where
  concurrency_level : Option Nat
  num_executor_shards : Nat
deriving DecidableEq, Repr

/-- `Opt::concurrency_level` (`main.rs:156-171`).  The source computes the
default as `(num_cpus::get() as f64 / num_executor_shards as f64).ceil() as
usize`; `num_cpus::get()` is passed in as `num_cpus`.  For every
machine-representable CPU count and positive shard count (both far below
2^53) the `f64` quotient's ceiling equals the exact mathematical ceiling, so
the derivation is embedded as natural ceiling division
`(num_cpus + shards - 1) / shards`. -/
def Opt.concurrencyLevel (o : Opt) (num_cpus : Nat) : Nat :=
  match o.concurrency_level with
  | none => (num_cpus + o.num_executor_shards - 1) / o.num_executor_shards
  | some level => level

/-! ## Claims about the benchmark CLI -/

/-- C6: with no explicit level configured, `Opt::concurrency_level` returns
`ceil(P / S)` for available parallelism `P` and shard count `S` — stated both
as Mathlib's ceiling division and by the defining property of the ceiling
(least `m` with `P ≤ S * m`); with an explicit level configured, that exact
value is returned unchanged. -/
theorem concurrency_level_ceiling (o : Opt) (P : Nat)
    (hS : 0 < o.num_executor_shards) :
    (o.concurrency_level = none →
      o.concurrencyLevel P = P ⌈/⌉ o.num_executor_shards ∧
      P ≤ o.num_executor_shards * o.concurrencyLevel P ∧
      ∀ m : Nat, P ≤ o.num_executor_shards * m →
        o.concurrencyLevel P ≤ m) ∧
    (∀ l, o.concurrency_level = some l → o.concurrencyLevel P = l) := by
  constructor
  · intro hnone
    have hval : o.concurrencyLevel P = P ⌈/⌉ o.num_executor_shards := by
      simp [Opt.concurrencyLevel, hnone, Nat.ceilDiv_eq_add_pred_div]
    refine ⟨hval, ?_, ?_⟩
    · rw [hval]
      exact (ceilDiv_le_iff_le_mul hS).mp le_rfl
    · intro m hm
      rw [hval]
      exact (ceilDiv_le_iff_le_mul hS).mpr hm
  · intro l hl
    simp [Opt.concurrencyLevel, hl]

/-- Witness for C6: 7 CPUs over 2 shards derive level `⌈7/2⌉`; an explicit
level 3 wins regardless of 100 CPUs. -/
theorem concurrency_level_ceiling_witness :
    Opt.concurrencyLevel ⟨none, 2⟩ 7 = 7 ⌈/⌉ 2 ∧
    Opt.concurrencyLevel ⟨some 3, 2⟩ 100 = 3 :=
  ⟨((concurrency_level_ceiling ⟨none, 2⟩ 7 (by decide)).1 rfl).1,
   (concurrency_level_ceiling ⟨some 3, 2⟩ 100 (by decide)).2 3 rfl⟩

/-- The ledger pruner enabled together with a zero prune window — the
combination the spec says is rejected. -/
def badLedgerOpt : PrunerOpt :=
  ⟨false, false, true, 100000, 100000, 0, 500, 500, 500⟩

/-- C7 counterexample: `pruner_config` is a total constructor with no error
path (`main.rs:64-85` is a single struct literal), so enabling the ledger
pruner with `prune_window = 0` is not rejected — the invalid combination is
produced as an ordinary config value. -/
theorem zero_window_enabled_not_rejected :
    badLedgerOpt.pruner_config =
      ⟨⟨false, 100000, 500⟩, ⟨false, 100000, 500⟩, ⟨true, 0, 500, 0⟩⟩ ∧
    (badLedgerOpt.pruner_config).ledger_pruner_config.enable = true ∧
    (badLedgerOpt.pruner_config).ledger_pruner_config.prune_window = 0 := by
  decide

/-- C7 (amended): `pruner_config` performs no validation at configuration
time: for every command line it succeeds and copies each pruner kind's
enable flag, prune window and batch size verbatim into the produced config —
including an enabled pruner with a zero window or zero batch size; any
enforcement is the storage layer's, downstream. -/
theorem pruner_config_no_validation (o : PrunerOpt) :
    (o.pruner_config).state_merkle_pruner_config.enable =
      o.enable_state_pruner ∧
    (o.pruner_config).state_merkle_pruner_config.prune_window =
      o.state_prune_window ∧
    (o.pruner_config).state_merkle_pruner_config.batch_size =
      o.state_pruning_batch_size ∧
    (o.pruner_config).epoch_snapshot_pruner_config.enable =
      o.enable_epoch_snapshot_pruner ∧
    (o.pruner_config).epoch_snapshot_pruner_config.prune_window =
      o.epoch_snapshot_prune_window ∧
    (o.pruner_config).epoch_snapshot_pruner_config.batch_size =
      o.epoch_snapshot_pruning_batch_size ∧
    (o.pruner_config).ledger_pruner_config.enable =
      o.enable_ledger_pruner ∧
    (o.pruner_config).ledger_pruner_config.prune_window =
      o.ledger_prune_window ∧
    (o.pruner_config).ledger_pruner_config.batch_size =
      o.ledger_pruning_batch_size :=
  ⟨rfl, rfl, rfl, rfl, rfl, rfl, rfl, rfl, rfl⟩

/-- C10: every command line produces a `LedgerPrunerConfig` whose
`user_pruning_window_offset` is `0` (the field is the literal `0` at
`main.rs:81`, with no CLI option feeding it), while the other three ledger
fields are each reachable from CLI options. -/
theorem user_pruning_window_offset_always_zero :
    (∀ o : PrunerOpt,
      (o.pruner_config).ledger_pruner_config.user_pruning_window_offset =
        0) ∧
    ∀ (e : Bool) (w b : Nat), ∃ o : PrunerOpt,
      (o.pruner_config).ledger_pruner_config.enable = e ∧
      (o.pruner_config).ledger_pruner_config.prune_window = w ∧
      (o.pruner_config).ledger_pruner_config.batch_size = b :=
  ⟨fun _ => rfl,
   fun e w b => ⟨⟨false, false, e, 0, 0, w, b, 0, 0⟩, rfl, rfl, rfl⟩⟩

end Benchmark
